import Mathlib

/-
Verification of the flexible connected position strategy
(src/cdk/overlay/position/flexible-connected-position-strategy.ts).

Shallow embedding: pixel quantities are rationals (JS numbers restricted to
the exact arithmetic the algorithm performs), DOM measurements are explicit
inputs (`Env`), the strategy's mutable fields are an explicit `State`, and
the configuration set through the builder methods is a `Config`.  Style
string assembly (`coerceCssPixelValue`, class lists, transform strings) is
out of scope per the module boundary; the computed numeric boxes and flags
are modelled directly.
-/

namespace Overlay

/-- JS Math.floor on a rational, returned as a rational.  `Int.fdiv` is
floor division and `q.den` is always positive, so this is ⌊q⌋. -/
def jsFloor (q : ℚ) : ℚ := ((q.num.fdiv q.den : ℤ) : ℚ)

/-- ClientRect: `{top, left, bottom, right, width, height}` in pixels. -/
structure Rect where
  top : ℚ
  left : ℚ
  bottom : ℚ
  right : ℚ
  width : ℚ
  height : ℚ
deriving DecidableEq, Repr

/-- A simple (x, y) coordinate (interface Point). -/
structure Point where
  x : ℚ
  y : ℚ
deriving DecidableEq, Repr

/-- Viewport scroll position `{top, left}` from the viewport ruler. -/
structure ViewportScrollPos where
  top : ℚ
  left : ℚ
deriving DecidableEq, Repr

/-- Horizontal connection position literal: 'start' | 'center' | 'end'. -/
inductive HPos
  | start
  | center
  | «end»
deriving DecidableEq, Repr

/-- Vertical connection position literal: 'top' | 'center' | 'bottom'. -/
inductive VPos
  | top
  | center
  | bottom
deriving DecidableEq, Repr

/-- interface ConnectedPosition (weight/offsetX/offsetY optional). -/
structure ConnectedPosition where
  originX : HPos
  originY : VPos
  overlayX : HPos
  overlayY : VPos
  weight : Option ℚ := none
  offsetX : Option ℚ := none
  offsetY : Option ℚ := none
  panelClass : List String := []
deriving DecidableEq, Repr

/-- interface OverlayFit. -/
structure OverlayFit where
  visibleArea : ℚ
  isCompletelyWithinViewport : Bool
  fitsInViewportVertically : Bool
  fitsInViewportHorizontally : Bool
deriving DecidableEq, Repr

/-- Width/height pair (`_lastBoundingBoxSize`). -/
structure Size where
  width : ℚ
  height : ℚ
deriving DecidableEq, Repr

/-- interface BoundingBoxRect.  In `_calculateBoundingBoxRect` only one of
top/bottom (resp. left/right) is assigned per axis; the other stays
`undefined`, modelled as `none`. -/
structure BoundingBoxRect where
  top : Option ℚ
  left : Option ℚ
  bottom : Option ℚ
  right : Option ℚ
  height : ℚ
  width : ℚ
deriving DecidableEq, Repr

/-- Strategy configuration: the builder (`withViewportMargin`,
`withFlexibleDimensions`, `withGrowAfterOpen`, `withPush`,
`withLockedPosition`, `withDefaultOffsetX/Y`, `withPositions`) and the
overlay config min/max sizes read through `_overlayRef.getConfig()`.
`minWidth`/`minHeight`/`maxWidth`/`maxHeight` are numbers (or px strings
already parsed); non-px CSS strings coerce to `none`.  `ngDevMode` is the
build-time global: `none` models it being undefined. -/
structure Config where
  preferredPositions : List ConnectedPosition := []
  viewportMargin : ℚ := 0
  canPush : Bool := true
  growAfterOpen : Bool := false
  hasFlexibleDimensions : Bool := true
  positionLocked : Bool := false
  offsetX : ℚ := 0
  offsetY : ℚ := 0
  minWidth : Option ℚ := none
  minHeight : Option ℚ := none
  maxWidth : Option ℚ := none
  maxHeight : Option ℚ := none
  ngDevMode : Option Bool := none
deriving DecidableEq, Repr

/-- Mutable strategy fields that persist across `apply()` calls. -/
structure State where
  isInitialRender : Bool
  isPushed : Bool := false
  isDisposed : Bool := false
  lastPosition : Option ConnectedPosition := none
  previousPushAmount : Option Point := none
  lastBoundingBoxSize : Size := ⟨0, 0⟩
deriving DecidableEq, Repr

/-- Measured environment for one positioning pass: the origin element's
bounding rect, the overlay pane's bounding rect, the document's client
size, the scroll position, text direction, platform and subscriber facts.
`keyboardOffset` is the overlay container's bounding rect top (the virtual
keyboard shift). -/
structure Env where
  originRect : Rect
  overlayRect : Rect
  clientWidth : ℚ
  clientHeight : ℚ
  scrollTop : ℚ := 0
  scrollLeft : ℚ := 0
  rtl : Bool := false
  isBrowser : Bool := true
  hasObservers : Bool := false
  keyboardOffset : ℚ := 0
deriving DecidableEq, Repr

/-- getRoundedBoundingClientRect: every field rounded down to the pixel. -/
def getRoundedBoundingClientRect (clientRect : Rect) : Rect :=
  { top := jsFloor clientRect.top
    right := jsFloor clientRect.right
    bottom := jsFloor clientRect.bottom
    left := jsFloor clientRect.left
    width := jsFloor clientRect.width
    height := jsFloor clientRect.height }

/-- getPixelValue restricted to numeric input: JS `input || null` maps
numeric 0 (falsy) and undefined to null. -/
def getPixelValue (input : Option ℚ) : Option ℚ :=
  match input with
  | none => none
  | some v => if v = 0 then none else some v

/-- Offset axis selector for `_getOffset`. -/
inductive Axis
  | x
  | y
deriving DecidableEq, Repr

/-- \_getOffset: the position's own offset if present, else the default. -/
def getOffset (cfg : Config) (position : ConnectedPosition) : Axis → ℚ
  | .x => position.offsetX.getD cfg.offsetX
  | .y => position.offsetY.getD cfg.offsetY

/-- \_getNarrowedViewportRect: document client size offset by scroll and
shrunk by the viewport margin on all four sides. -/
def getNarrowedViewportRect (cfg : Config) (env : Env) : Rect :=
  { top := env.scrollTop + cfg.viewportMargin
    left := env.scrollLeft + cfg.viewportMargin
    right := env.scrollLeft + env.clientWidth - cfg.viewportMargin
    bottom := env.scrollTop + env.clientHeight - cfg.viewportMargin
    width := env.clientWidth - 2 * cfg.viewportMargin
    height := env.clientHeight - 2 * cfg.viewportMargin }

/-- \_getOriginPoint: connection point on the origin rect; `start`/`end`
flip under RTL, `center` always measures from `left`. -/
def getOriginPoint (rtl : Bool) (originRect : Rect) (pos : ConnectedPosition) : Point :=
  let x : ℚ :=
    if pos.originX == HPos.center then
      originRect.left + originRect.width / 2
    else
      let startX := if rtl then originRect.right else originRect.left
      let endX := if rtl then originRect.left else originRect.right
      if pos.originX == HPos.start then startX else endX
  let y : ℚ :=
    if pos.originY == VPos.center then
      originRect.top + originRect.height / 2
    else if pos.originY == VPos.top then originRect.top else originRect.bottom
  ⟨x, y⟩

/-- \_getOverlayPoint: top-left corner of the overlay so that its anchor
corner per `overlayX`/`overlayY` lands on the origin point. -/
def getOverlayPoint (rtl : Bool) (originPoint : Point) (overlayRect : Rect)
    (pos : ConnectedPosition) : Point :=
  let overlayStartX : ℚ :=
    if pos.overlayX == HPos.center then
      -overlayRect.width / 2
    else if pos.overlayX == HPos.start then
      (if rtl then -overlayRect.width else 0)
    else
      (if rtl then 0 else -overlayRect.width)
  let overlayStartY : ℚ :=
    if pos.overlayY == VPos.center then
      -overlayRect.height / 2
    else if pos.overlayY == VPos.top then 0 else -overlayRect.height
  ⟨originPoint.x + overlayStartX, originPoint.y + overlayStartY⟩

/-- \_subtractOverflows: reduce, subtracting `max(overflow, 0)` each time. -/
def subtractOverflows (length : ℚ) (overflows : List ℚ) : ℚ :=
  overflows.foldl (fun currentValue currentOverflow => currentValue - max currentOverflow 0) length

/-- The point `_getOverlayFit` actually scores: the overlay point with the
position's offsets applied (JS skips a falsy, i.e. zero, offset). -/
def overlayFitPoint (cfg : Config) (point : Point) (position : ConnectedPosition) : Point :=
  let offsetX := getOffset cfg position Axis.x
  let offsetY := getOffset cfg position Axis.y
  let x := if offsetX ≠ 0 then point.x + offsetX else point.x
  let y := if offsetY ≠ 0 then point.y + offsetY else point.y
  ⟨x, y⟩

/-- Visible width computed inside `_getOverlayFit`. -/
def overlayFitVisibleWidth (cfg : Config) (point : Point) (rawOverlayRect viewport : Rect)
    (position : ConnectedPosition) : ℚ :=
  let overlay := getRoundedBoundingClientRect rawOverlayRect
  let p := overlayFitPoint cfg point position
  let leftOverflow := 0 - p.x
  let rightOverflow := (p.x + overlay.width) - viewport.width
  subtractOverflows overlay.width [leftOverflow, rightOverflow]

/-- Visible height computed inside `_getOverlayFit`. -/
def overlayFitVisibleHeight (cfg : Config) (point : Point) (rawOverlayRect viewport : Rect)
    (position : ConnectedPosition) : ℚ :=
  let overlay := getRoundedBoundingClientRect rawOverlayRect
  let p := overlayFitPoint cfg point position
  let topOverflow := 0 - p.y
  let bottomOverflow := (p.y + overlay.height) - viewport.height
  subtractOverflows overlay.height [topOverflow, bottomOverflow]

/-- \_getOverlayFit: how well an overlay at the given point fits the
viewport.  The raw overlay rect is rounded down before comparing. -/
def getOverlayFit (cfg : Config) (point : Point) (rawOverlayRect viewport : Rect)
    (position : ConnectedPosition) : OverlayFit :=
  let overlay := getRoundedBoundingClientRect rawOverlayRect
  let visibleWidth := overlayFitVisibleWidth cfg point rawOverlayRect viewport position
  let visibleHeight := overlayFitVisibleHeight cfg point rawOverlayRect viewport position
  let visibleArea := visibleWidth * visibleHeight
  { visibleArea := visibleArea
    isCompletelyWithinViewport := decide (overlay.width * overlay.height = visibleArea)
    fitsInViewportVertically := decide (visibleHeight = overlay.height)
    fitsInViewportHorizontally := decide (visibleWidth = overlay.width) }

/-- \_canFitWithFlexibleDimensions: the overlay may use this position when
flexible dimensions are on and each axis either already fits or leaves at
least the configured minimum size between the point and the viewport's
bottom/right edge. -/
def canFitWithFlexibleDimensions (cfg : Config) (fit : OverlayFit) (point : Point)
    (viewport : Rect) : Bool :=
  if cfg.hasFlexibleDimensions then
    let availableHeight := viewport.bottom - point.y
    let availableWidth := viewport.right - point.x
    let minHeight := getPixelValue cfg.minHeight
    let minWidth := getPixelValue cfg.minWidth
    let verticalFit := fit.fitsInViewportVertically ||
      (match minHeight with
       | some mh => decide (mh ≤ availableHeight)
       | none => false)
    let horizontalFit := fit.fitsInViewportHorizontally ||
      (match minWidth with
       | some mw => decide (mw ≤ availableWidth)
       | none => false)
    verticalFit && horizontalFit
  else false

/-- The per-axis push computed by `_pushOverlayOnScreen` when it does not
reuse a previous amount: if the overlay fits within the viewport extent on
an axis, push by whichever edge overflows
(`pushX = overflowLeft || -overflowRight` is JS number coalescing);
otherwise only bring the leading edge into view when it starts before the
margin. -/
def computePushAmount (cfg : Config) (viewport : Rect) (start : Point)
    (rawOverlayRect : Rect) (scrollPosition : ViewportScrollPos) : Point :=
  let overlay := getRoundedBoundingClientRect rawOverlayRect
  let overflowRight := max (start.x + overlay.width - viewport.width) 0
  let overflowBottom := max (start.y + overlay.height - viewport.height) 0
  let overflowTop := max (viewport.top - scrollPosition.top - start.y) 0
  let overflowLeft := max (viewport.left - scrollPosition.left - start.x) 0
  let pushX : ℚ :=
    if overlay.width ≤ viewport.width then
      (if overflowLeft ≠ 0 then overflowLeft else -overflowRight)
    else
      (if start.x < cfg.viewportMargin then (viewport.left - scrollPosition.left) - start.x else 0)
  let pushY : ℚ :=
    if overlay.height ≤ viewport.height then
      (if overflowTop ≠ 0 then overflowTop else -overflowBottom)
    else
      (if start.y < cfg.viewportMargin then (viewport.top - scrollPosition.top) - start.y else 0)
  ⟨pushX, pushY⟩

/-- \_pushOverlayOnScreen.  `prev` is the `_previousPushAmount` cell; the
returned pair is the pushed point and the new cell value.  When the
position is locked and a previous push amount exists, that exact delta is
reapplied with no recomputation; otherwise the push is computed and the
resulting delta recorded. -/
def pushOverlayOnScreen (cfg : Config) (viewport : Rect) (prev : Option Point)
    (start : Point) (rawOverlayRect : Rect) (scrollPosition : ViewportScrollPos) :
    Point × Option Point :=
  match prev, cfg.positionLocked with
  | some p, true => (⟨start.x + p.x, start.y + p.y⟩, some p)
  | _, _ =>
    let push := computePushAmount cfg viewport start rawOverlayRect scrollPosition
    (⟨start.x + push.x, start.y + push.y⟩, some push)

/-- \_calculateBoundingBoxRect: the sizing box for a candidate, bounded by
the viewport edge opposite the anchored edge on each axis; centered axes
are symmetric around the anchor, with the no-grow adjustment re-centering
on the previously applied size. -/
def calculateBoundingBoxRect (cfg : Config) (st : State) (rtl : Bool) (viewport : Rect)
    (origin : Point) (position : ConnectedPosition) : BoundingBoxRect :=
  let vertical : Option ℚ × Option ℚ × ℚ :=
    match position.overlayY with
    | .top =>
      let top := origin.y
      (some top, none, viewport.height - top + cfg.viewportMargin)
    | .bottom =>
      let bottom := viewport.height - origin.y + cfg.viewportMargin * 2
      (none, some bottom, viewport.height - bottom + cfg.viewportMargin)
    | .center =>
      let smallestDistanceToViewportEdge :=
        min (viewport.bottom - origin.y + viewport.top) origin.y
      let previousHeight := st.lastBoundingBoxSize.height
      let height := smallestDistanceToViewportEdge * 2
      let top := origin.y - smallestDistanceToViewportEdge
      let top :=
        if previousHeight < height ∧ st.isInitialRender = false ∧ cfg.growAfterOpen = false then
          origin.y - previousHeight / 2
        else top
      (some top, none, height)
  let isBoundedByRightViewportEdge :=
    (position.overlayX == HPos.start && !rtl) || (position.overlayX == HPos.«end» && rtl)
  let isBoundedByLeftViewportEdge :=
    (position.overlayX == HPos.«end» && !rtl) || (position.overlayX == HPos.start && rtl)
  let horizontal : Option ℚ × Option ℚ × ℚ :=
    if isBoundedByLeftViewportEdge then
      (none, some (viewport.width - origin.x + cfg.viewportMargin), origin.x - cfg.viewportMargin)
    else if isBoundedByRightViewportEdge then
      (some origin.x, none, viewport.right - origin.x)
    else
      let smallestDistanceToViewportEdge :=
        min (viewport.right - origin.x + viewport.left) origin.x
      let previousWidth := st.lastBoundingBoxSize.width
      let width := smallestDistanceToViewportEdge * 2
      let left := origin.x - smallestDistanceToViewportEdge
      let left :=
        if previousWidth < width ∧ st.isInitialRender = false ∧ cfg.growAfterOpen = false then
          origin.x - previousWidth / 2
        else left
      (some left, none, width)
  { top := vertical.1, bottom := vertical.2.1, height := vertical.2.2,
    left := horizontal.1, right := horizontal.2.1, width := horizontal.2.2 }

/-- \_hasExactPosition. -/
def hasExactPosition (cfg : Config) (st : State) : Bool :=
  !cfg.hasFlexibleDimensions || st.isPushed

/-- Bounding box styles sink: `exactFill` models the `top/left = 0,
width/height = 100%` branch; `rect` carries the numeric box written
otherwise (and stored as the last size in both cases). -/
structure BoundingBoxStyles where
  exactFill : Bool
  rect : BoundingBoxRect
deriving DecidableEq, Repr

/-- \_setBoundingBoxStyles: caps the computed box by the last applied size
unless growing is allowed or this is the initial render, emits the styles
and returns the new `_lastBoundingBoxSize`. -/
def setBoundingBoxStyles (cfg : Config) (st : State) (rtl : Bool) (viewport : Rect)
    (origin : Point) (position : ConnectedPosition) : BoundingBoxStyles × Size :=
  let boundingBoxRect := calculateBoundingBoxRect cfg st rtl viewport origin position
  let boundingBoxRect :=
    if st.isInitialRender = false ∧ cfg.growAfterOpen = false then
      { boundingBoxRect with
        height := min boundingBoxRect.height st.lastBoundingBoxSize.height
        width := min boundingBoxRect.width st.lastBoundingBoxSize.width }
    else boundingBoxRect
  ({ exactFill := hasExactPosition cfg st, rect := boundingBoxRect },
   ⟨boundingBoxRect.width, boundingBoxRect.height⟩)

/-- Overlay pane styles sink for `_setOverlayElementStyles`: exact
top/bottom/left/right values (`none` models an unset/cleared style) and
the translate offsets; `isStatic` models `position: static`. -/
structure PaneStyles where
  isStatic : Bool
  top : Option ℚ := none
  bottom : Option ℚ := none
  left : Option ℚ := none
  right : Option ℚ := none
  transformX : ℚ := 0
  transformY : ℚ := 0
deriving DecidableEq, Repr

/-- \_getExactOverlayY: top/bottom style plus the updated push cell. -/
def getExactOverlayY (cfg : Config) (st : State) (env : Env) (viewport : Rect)
    (prev : Option Point) (position : ConnectedPosition) (originPoint : Point)
    (scrollPosition : ViewportScrollPos) : (Option ℚ × Option ℚ) × Option Point :=
  let overlayPoint := getOverlayPoint env.rtl originPoint env.overlayRect position
  let (overlayPoint, prev) :=
    if st.isPushed then
      pushOverlayOnScreen cfg viewport prev overlayPoint env.overlayRect scrollPosition
    else (overlayPoint, prev)
  let y := overlayPoint.y - env.keyboardOffset
  match position.overlayY with
  | .bottom => ((none, some (env.clientHeight - (y + env.overlayRect.height))), prev)
  | _ => ((some y, none), prev)

/-- \_getExactOverlayX: left/right style plus the updated push cell. -/
def getExactOverlayX (cfg : Config) (st : State) (env : Env) (viewport : Rect)
    (prev : Option Point) (position : ConnectedPosition) (originPoint : Point)
    (scrollPosition : ViewportScrollPos) : (Option ℚ × Option ℚ) × Option Point :=
  let overlayPoint := getOverlayPoint env.rtl originPoint env.overlayRect position
  let (overlayPoint, prev) :=
    if st.isPushed then
      pushOverlayOnScreen cfg viewport prev overlayPoint env.overlayRect scrollPosition
    else (overlayPoint, prev)
  let usesRight : Bool :=
    if env.rtl then !(position.overlayX == HPos.«end») else position.overlayX == HPos.«end»
  if usesRight then
    ((none, some (env.clientWidth - (overlayPoint.x + env.overlayRect.width))), prev)
  else
    ((some overlayPoint.x, none), prev)

/-- \_setOverlayElementStyles: exact styles (with pushing) when the
position is exact, `position: static` otherwise; offsets become a
transform either way.  Returns the styles and the push cell after the two
exact-style computations ran. -/
def setOverlayElementStyles (cfg : Config) (st : State) (env : Env) (viewport : Rect)
    (position : ConnectedPosition) (originPoint : Point) : PaneStyles × Option Point :=
  let offsetX := getOffset cfg position Axis.x
  let offsetY := getOffset cfg position Axis.y
  if hasExactPosition cfg st then
    let scrollPosition : ViewportScrollPos := ⟨env.scrollTop, env.scrollLeft⟩
    let ((top, bottom), prev) :=
      getExactOverlayY cfg st env viewport st.previousPushAmount position originPoint
        scrollPosition
    let ((left, right), prev) :=
      getExactOverlayX cfg st env viewport prev position originPoint scrollPosition
    ({ isStatic := false, top := top, bottom := bottom, left := left, right := right,
       transformX := offsetX, transformY := offsetY }, prev)
  else
    ({ isStatic := true, transformX := offsetX, transformY := offsetY },
     st.previousPushAmount)

/-- What one `_applyPosition` call produces: the chosen candidate, its
origin point, the pushed flag, the two style sinks, and whether a
`positionChanges` event was emitted (it is iff there are subscribers). -/
structure Output where
  position : ConnectedPosition
  originPoint : Point
  pushed : Bool
  pane : PaneStyles
  box : BoundingBoxStyles
  emitted : Bool
deriving DecidableEq, Repr

/-- \_applyPosition: writes both style sinks, saves the last position and
bounding box size, emits the change event when observed, and clears the
initial-render flag. -/
def applyPosition (cfg : Config) (st : State) (env : Env) (viewport : Rect)
    (position : ConnectedPosition) (originPoint : Point) : State × Output :=
  let (pane, prev) := setOverlayElementStyles cfg st env viewport position originPoint
  let (box, lastSize) := setBoundingBoxStyles cfg st env.rtl viewport originPoint position
  ({ st with
      previousPushAmount := prev
      lastBoundingBoxSize := lastSize
      lastPosition := some position
      isInitialRender := false },
   { position := position, originPoint := originPoint, pushed := st.isPushed,
     pane := pane, box := box, emitted := env.hasObservers })

/-- interface FallbackPosition. -/
structure FallbackPosition where
  position : ConnectedPosition
  originPoint : Point
  overlayPoint : Point
  overlayFit : OverlayFit
  overlayRect : Rect
deriving DecidableEq, Repr

/-- interface FlexibleFit. -/
structure FlexibleFit where
  position : ConnectedPosition
  origin : Point
  overlayRect : Rect
  boundingBoxRect : BoundingBoxRect
deriving DecidableEq, Repr

/-- Result of the candidate loop in `apply()`: either the first completely
fitting candidate (selected immediately) or the accumulated flexible fits
and best fallback. -/
inductive LoopResult
  | immediate (position : ConnectedPosition) (originPoint : Point)
  | finished (flexibleFits : List FlexibleFit) (fallback : Option FallbackPosition)
deriving DecidableEq, Repr

/-- The `for (let pos of this._preferredPositions)` loop of `apply()`. -/
def applyLoop (cfg : Config) (st : State) (env : Env) (viewport : Rect) :
    List ConnectedPosition → List FlexibleFit → Option FallbackPosition → LoopResult
  | [], flexibleFits, fallback => .finished flexibleFits fallback
  | pos :: rest, flexibleFits, fallback =>
    let originPoint := getOriginPoint env.rtl env.originRect pos
    let overlayPoint := getOverlayPoint env.rtl originPoint env.overlayRect pos
    let overlayFit := getOverlayFit cfg overlayPoint env.overlayRect viewport pos
    if overlayFit.isCompletelyWithinViewport then
      .immediate pos originPoint
    else if canFitWithFlexibleDimensions cfg overlayFit overlayPoint viewport then
      applyLoop cfg st env viewport rest
        (flexibleFits ++
          [⟨pos, originPoint, env.overlayRect,
            calculateBoundingBoxRect cfg st env.rtl viewport originPoint pos⟩])
        fallback
    else
      let fallback' :=
        match fallback with
        | some f =>
          if f.overlayFit.visibleArea < overlayFit.visibleArea then
            some ⟨pos, originPoint, overlayPoint, overlayFit, env.overlayRect⟩
          else fallback
        | none => some ⟨pos, originPoint, overlayPoint, overlayFit, env.overlayRect⟩
      applyLoop cfg st env viewport rest flexibleFits fallback'

/-- The score `apply()` gives a flexible fit:
`boundingBoxRect.width * boundingBoxRect.height * (position.weight || 1)`.
JS `||` treats an explicit weight of 0 as falsy, so it also coalesces
to 1. -/
def codeScore (fit : FlexibleFit) : ℚ :=
  fit.boundingBoxRect.width * fit.boundingBoxRect.height *
    (match fit.position.weight with
     | some w => if w = 0 then 1 else w
     | none => 1)

/-- The best-fit scan over flexible fits: strict `score > bestScore` with
`bestScore` starting at -1, so the first-seen candidate wins ties. -/
def bestFlexLoop : List FlexibleFit → Option FlexibleFit → ℚ → Option FlexibleFit
  | [], bestFit, _ => bestFit
  | fit :: rest, bestFit, bestScore =>
    if bestScore < codeScore fit then bestFlexLoop rest (some fit) (codeScore fit)
    else bestFlexLoop rest bestFit bestScore

/-- apply() after the early locked-position return: measure, loop over the
candidates, then the strict priority chain exact → flexible →
pushed-fallback → unpushed-fallback.  `none` output models the TS runtime
faults (`bestFit!` / `fallback!` dereference with nothing recorded). -/
def fullApply (cfg : Config) (st : State) (env : Env) : State × Option Output :=
  let viewport := getNarrowedViewportRect cfg env
  match applyLoop cfg st env viewport cfg.preferredPositions [] none with
  | .immediate pos originPoint =>
    let r := applyPosition cfg { st with isPushed := false } env viewport pos originPoint
    (r.1, some r.2)
  | .finished flexibleFits fallback =>
    if !flexibleFits.isEmpty then
      match bestFlexLoop flexibleFits none (-1) with
      | some bestFit =>
        let r := applyPosition cfg { st with isPushed := false } env viewport
          bestFit.position bestFit.origin
        (r.1, some r.2)
      | none => (st, none)
    else if cfg.canPush then
      match fallback with
      | some f =>
        let r := applyPosition cfg { st with isPushed := true } env viewport
          f.position f.originPoint
        (r.1, some r.2)
      | none => (st, none)
    else
      match fallback with
      | some f =>
        let r := applyPosition cfg st env viewport f.position f.originPoint
        (r.1, some r.2)
      | none => (st, none)

/-- reapplyLastPosition: re-align using the last calculated position (or
the first preferred position) against fresh measurements. -/
def reapplyLastPosition (cfg : Config) (st : State) (env : Env) : State × Option Output :=
  if !st.isDisposed && env.isBrowser then
    let viewport := getNarrowedViewportRect cfg env
    let lastPosition :=
      match st.lastPosition with
      | some p => some p
      | none => cfg.preferredPositions.head?
    match lastPosition with
    | some pos =>
      let r := applyPosition cfg st env viewport pos
        (getOriginPoint env.rtl env.originRect pos)
      (r.1, some r.2)
    | none => (st, none)
  else (st, none)

/-- apply(): no-op when disposed or not in a browser; locked shortcut when
this is not the initial render, the position is locked and a last position
exists; full selection otherwise. -/
def applyStep (cfg : Config) (st : State) (env : Env) : State × Option Output :=
  if st.isDisposed || !env.isBrowser then (st, none)
  else if !st.isInitialRender && cfg.positionLocked && st.lastPosition.isSome then
    reapplyLastPosition cfg st env
  else fullApply cfg st env

/-- Whether the ngDevMode build-time global enables dev checks:
`typeof ngDevMode === 'undefined' || ngDevMode` (`none` = undefined). -/
def devModeEnabled : Option Bool → Bool
  | none => true
  | some b => b

/-- \_validatePositions on the typed candidate list: in dev mode an empty
list throws.  (The per-candidate enum checks can only fail on raw string
input; they are modelled separately on `RawConnectedPosition`.) -/
def validatePositionsTyped (cfg : Config) : Except String Unit :=
  if devModeEnabled cfg.ngDevMode then
    if cfg.preferredPositions.isEmpty then
      .error "FlexibleConnectedPositionStrategy: At least one position is required."
    else .ok ()
  else .ok ()

/-- withPositions: replaces the preferred list, clears the last position
when it is no longer in the list (JS `indexOf === -1`), and re-validates.
The config and state updates happen before a validation error would be
thrown. -/
def withPositions (positions : List ConnectedPosition) (cfg : Config) (st : State) :
    Config × State × Except String Unit :=
  let cfg' := { cfg with preferredPositions := positions }
  let st' :=
    match st.lastPosition with
    | some p => if positions.contains p then st else { st with lastPosition := none }
    | none => { st with lastPosition := none }
  (cfg', st', validatePositionsTyped cfg')

/-- detach(): clears the last position and previous push amount. -/
def detachState (st : State) : State :=
  { st with lastPosition := none, previousPushAmount := none }

/-- attach(): whether the re-attach guard throws.  The throw happens only
when an overlay is already attached, the new reference differs, and the
ngDevMode guard is active. -/
def attachReattachThrows (ngDevMode : Option Bool) (alreadyAttached sameRef : Bool) : Bool :=
  alreadyAttached && !sameRef && devModeEnabled ngDevMode

/-- A candidate as raw (possibly invalid) string literals, the shape the
enum validators check at attach()/withPositions() time. -/
structure RawConnectedPosition where
  originX : String
  originY : String
  overlayX : String
  overlayY : String
deriving DecidableEq, Repr

/-- Modelled from the spec: `validateHorizontalPosition` lives in
connected-position.ts, which is not under src; per the spec, attach-time
validation requires each horizontal enum field to be one of the allowed
literals 'start' | 'center' | 'end' and throws otherwise. -/
def validateHorizontalPosition (property value : String) : Except String Unit :=
  if value = "start" || value = "center" || value = "end" then .ok ()
  else .error (property ++ ": invalid horizontal position")

/-- Modelled from the spec: `validateVerticalPosition` lives in
connected-position.ts, which is not under src; the allowed literals are
'top' | 'center' | 'bottom'. -/
def validateVerticalPosition (property value : String) : Except String Unit :=
  if value = "top" || value = "center" || value = "bottom" then .ok ()
  else .error (property ++ ": invalid vertical position")

/-- The forEach body of `_validatePositions` for one candidate: the four
enum validators in source order, stopping at the first failure. -/
def validateRawPair (pair : RawConnectedPosition) : Except String Unit :=
  (validateHorizontalPosition "originX" pair.originX).bind fun _ =>
  (validateVerticalPosition "originY" pair.originY).bind fun _ =>
  (validateHorizontalPosition "overlayX" pair.overlayX).bind fun _ =>
  validateVerticalPosition "overlayY" pair.overlayY

/-- Sequential validation of the list (a throw aborts the iteration). -/
def validateRawList : List RawConnectedPosition → Except String Unit
  | [] => .ok ()
  | pair :: rest => (validateRawPair pair).bind fun _ => validateRawList rest

/-- \_validatePositions on raw candidates: everything is guarded by the
ngDevMode check; in dev mode an empty list throws, then each candidate's
enum fields are validated. -/
def validateRawPositions (ngDevMode : Option Bool) (ps : List RawConnectedPosition) :
    Except String Unit :=
  if devModeEnabled ngDevMode then
    if ps.isEmpty then
      .error "FlexibleConnectedPositionStrategy: At least one position is required."
    else validateRawList ps
  else .ok ()

/-- Whether an Except carries a value (did not throw). -/
def exceptOk : Except String Unit → Bool
  | .ok _ => true
  | .error _ => false

/-- All four enum fields of a raw candidate hold allowed literals. -/
def rawPositionValid (pair : RawConnectedPosition) : Bool :=
  (pair.originX = "start" ∨ pair.originX = "center" ∨ pair.originX = "end") ∧
  (pair.originY = "top" ∨ pair.originY = "center" ∨ pair.originY = "bottom") ∧
  (pair.overlayX = "start" ∨ pair.overlayX = "center" ∨ pair.overlayX = "end") ∧
  (pair.overlayY = "top" ∨ pair.overlayY = "center" ∨ pair.overlayY = "bottom")

/-- Mirror of a horizontal literal: start ↔ end, center fixed. -/
def mirrorH : HPos → HPos
  | .start => .«end»
  | .center => .center
  | .«end» => .start

/-- Horizontal mirror of a candidate: swap start ↔ end on both `originX`
and `overlayX`; everything else unchanged. -/
def mirrorPosition (pos : ConnectedPosition) : ConnectedPosition :=
  { pos with originX := mirrorH pos.originX, overlayX := mirrorH pos.overlayX }

/-- Whether a candidate, evaluated exactly as the `apply()` loop does,
fits completely within the viewport. -/
def completeFitB (cfg : Config) (env : Env) (viewport : Rect) (pos : ConnectedPosition) : Bool :=
  let originPoint := getOriginPoint env.rtl env.originRect pos
  let overlayPoint := getOverlayPoint env.rtl originPoint env.overlayRect pos
  (getOverlayFit cfg overlayPoint env.overlayRect viewport pos).isCompletelyWithinViewport

/-- The flexible fits `apply()` records for the given inputs (empty when a
candidate is selected immediately). -/
def flexibleFitsOf (cfg : Config) (st : State) (env : Env) : List FlexibleFit :=
  match applyLoop cfg st env (getNarrowedViewportRect cfg env) cfg.preferredPositions [] none with
  | .finished flexibleFits _ => flexibleFits
  | .immediate _ _ => []

/-- The candidate `apply()` ends up applying, if any. -/
def appliedPositionOf (cfg : Config) (st : State) (env : Env) : Option ConnectedPosition :=
  (applyStep cfg st env).2.map fun out => out.position

/-- The flexible-fit score the specification claims:
`boundingBoxArea * (weight ?? 1)` — nullish coalescing, so an explicit
weight of 0 scores 0. -/
def specFlexScore (fit : FlexibleFit) : ℚ :=
  fit.boundingBoxRect.width * fit.boundingBoxRect.height * fit.position.weight.getD 1

/-- The stored last position is null or a member of the current preferred
list. -/
def LastPositionInv (cfg : Config) (st : State) : Prop :=
  st.lastPosition = none ∨
    ∃ p, st.lastPosition = some p ∧ p ∈ cfg.preferredPositions

/-! Concrete scenarios used by witnesses and counterexamples. -/

/-- A 20×20 origin at (10, 10) (the spec's concrete scenario). -/
def originRectA : Rect := ⟨10, 10, 30, 30, 20, 20⟩

/-- The same origin shifted to (20, 20). -/
def originRectB : Rect := ⟨20, 20, 40, 40, 20, 20⟩

/-- A 30×30 overlay pane rect. -/
def overlayRect30 : Rect := ⟨0, 0, 30, 30, 30, 30⟩

/-- A 50×50 overlay pane rect. -/
def overlayRect50 : Rect := ⟨0, 0, 50, 50, 50, 50⟩

/-- A 5×5 origin near the bottom-right corner of a 100×100 viewport. -/
def originRectCorner : Rect := ⟨90, 90, 95, 95, 5, 5⟩

/-- Candidate: origin end/bottom connected to overlay start/top. -/
def posEndBottom : ConnectedPosition :=
  { originX := .«end», originY := .bottom, overlayX := .start, overlayY := .top }

/-- Candidate: origin start/top to overlay start/top. -/
def posStartTop : ConnectedPosition :=
  { originX := .start, originY := .top, overlayX := .start, overlayY := .top }

/-- Candidate opening upward with an explicit weight of 0. -/
def posWeightZero : ConnectedPosition :=
  { originX := .start, originY := .top, overlayX := .start, overlayY := .bottom,
    weight := some 0 }

/-- Fresh state right after attach(). -/
def stInitial : State := { isInitialRender := true }

/-- C1 scenario: single candidate that fits completely. -/
def cfgC1 : Config := { preferredPositions := [posEndBottom] }

/-- C1 environment: 100×100 viewport, origin at (10, 10), 30×30 overlay. -/
def envC1 : Env :=
  { originRect := originRectA, overlayRect := overlayRect30,
    clientWidth := 100, clientHeight := 100 }

/-- C2 scenario: two flexible-fit candidates; the first has nine times the
bounding-box area but an explicit weight of 0. -/
def cfgC2 : Config :=
  { preferredPositions := [posWeightZero, posStartTop],
    minWidth := some 1, minHeight := some 1 }

/-- C2 environment: origin in the bottom-right corner so neither candidate
fits completely. -/
def envC2 : Env :=
  { originRect := originRectCorner, overlayRect := overlayRect50,
    clientWidth := 100, clientHeight := 100 }

/-- C4/C7 scenario: locked position with a recorded last position. -/
def cfgLocked : Config := { preferredPositions := [posStartTop], positionLocked := true }

/-- State in which the locked shortcut is taken: not the initial render
and a last position recorded. -/
def stLocked : State :=
  { isInitialRender := false, lastPosition := some posStartTop,
    lastBoundingBoxSize := ⟨1000, 1000⟩ }

/-- Environment for the first locked call (origin at (10, 10)). -/
def envLockedA : Env :=
  { originRect := originRectA, overlayRect := overlayRect30,
    clientWidth := 100, clientHeight := 100 }

/-- Environment for the second locked call: origin moved to (20, 20). -/
def envLockedB : Env :=
  { originRect := originRectB, overlayRect := overlayRect30,
    clientWidth := 100, clientHeight := 100 }

/-- The locked environment with a positionChanges subscriber. -/
def envLockedObserved : Env := { envLockedA with hasObservers := true }

/-- A raw candidate whose originX is not an allowed literal. -/
def rawInvalid : RawConnectedPosition := ⟨"diagonal", "top", "start", "top"⟩

/-- The flexible fit recorded for `posWeightZero` in the C2 scenario:
bounding box 10 wide × 90 tall. -/
def fitC2A : FlexibleFit :=
  ⟨posWeightZero, ⟨90, 90⟩, overlayRect50, ⟨none, some 90, some 10, none, 90, 10⟩⟩

/-- The flexible fit recorded for `posStartTop` in the C2 scenario:
bounding box 10 wide × 10 tall. -/
def fitC2B : FlexibleFit :=
  ⟨posStartTop, ⟨90, 90⟩, overlayRect50, ⟨some 90, some 90, none, none, 10, 10⟩⟩

/-! Theorems. -/

/-- C3 (amended): the fit evaluator computes each visible dimension as the
rounded-down overlay dimension minus the nonnegative overflow past each of
the two opposing viewport edges — with no floor at 0, so it can be
negative — `visibleArea` is their product, and
`isCompletelyWithinViewport` holds iff `visibleArea` equals the product of
the rounded-down overlay width and height. -/
theorem overlay_fit_formula (cfg : Config) (point : Point) (rawOverlayRect viewport : Rect)
    (position : ConnectedPosition) :
    overlayFitVisibleWidth cfg point rawOverlayRect viewport position =
      (getRoundedBoundingClientRect rawOverlayRect).width -
        max 0 (0 - (overlayFitPoint cfg point position).x) -
        max 0 ((overlayFitPoint cfg point position).x +
          (getRoundedBoundingClientRect rawOverlayRect).width - viewport.width) ∧
    overlayFitVisibleHeight cfg point rawOverlayRect viewport position =
      (getRoundedBoundingClientRect rawOverlayRect).height -
        max 0 (0 - (overlayFitPoint cfg point position).y) -
        max 0 ((overlayFitPoint cfg point position).y +
          (getRoundedBoundingClientRect rawOverlayRect).height - viewport.height) ∧
    (getOverlayFit cfg point rawOverlayRect viewport position).visibleArea =
      overlayFitVisibleWidth cfg point rawOverlayRect viewport position *
        overlayFitVisibleHeight cfg point rawOverlayRect viewport position ∧
    ((getOverlayFit cfg point rawOverlayRect viewport position).isCompletelyWithinViewport = true ↔
      (getOverlayFit cfg point rawOverlayRect viewport position).visibleArea =
        (getRoundedBoundingClientRect rawOverlayRect).width *
          (getRoundedBoundingClientRect rawOverlayRect).height) := by
  refine ⟨?_, ?_, ?_, ?_⟩
  · simp [overlayFitVisibleWidth, subtractOverflows, max_comm]
  · simp [overlayFitVisibleHeight, subtractOverflows, max_comm]
  · simp [getOverlayFit]
  · simp [getOverlayFit, eq_comm]

/-- C3 counterexample: an overlay of rounded width 10 placed at x = -20 in
a 100-wide viewport gets visible width -10, so the claimed floor at 0
("never negative") does not hold on the code. -/
theorem overlay_fit_negative_visible_width_cx :
    overlayFitVisibleWidth {} ⟨-20, 0⟩ ⟨0, 0, 10, 10, 10, 10⟩ ⟨0, 0, 100, 100, 100, 100⟩
      posStartTop = -10 ∧ (-10 : ℚ) < 0 := by
  constructor
  · with_unfolding_all decide
  · norm_num

/-- C5: when the position is locked and a previous push amount is
recorded, the push resolver translates the start point by exactly that
delta and performs no fresh computation (the cell is returned unchanged);
otherwise it computes a new push and records the resulting delta, the
returned point being the start translated by it. -/
theorem push_resolver_locked_reuse (cfg : Config) (viewport : Rect) (prev : Option Point)
    (start : Point) (rawOverlayRect : Rect) (scroll : ViewportScrollPos) :
    (∀ d, cfg.positionLocked = true → prev = some d →
      pushOverlayOnScreen cfg viewport prev start rawOverlayRect scroll =
        (⟨start.x + d.x, start.y + d.y⟩, some d)) ∧
    (cfg.positionLocked = false ∨ prev = none →
      pushOverlayOnScreen cfg viewport prev start rawOverlayRect scroll =
        (⟨start.x + (computePushAmount cfg viewport start rawOverlayRect scroll).x,
          start.y + (computePushAmount cfg viewport start rawOverlayRect scroll).y⟩,
         some (computePushAmount cfg viewport start rawOverlayRect scroll))) := by
  constructor
  · intro d hlock hprev
    subst hprev
    simp [pushOverlayOnScreen, hlock]
  · intro h
    rcases h with h | h
    · cases prev <;> simp [pushOverlayOnScreen, h]
    · subst h
      simp [pushOverlayOnScreen]

/-- C8: when growing after open is disabled and this is not the initial
render, the applied bounding box never exceeds the previously applied size
on either axis, while a computed size at or below the previous one is
applied unchanged (shrinking is always allowed). -/
theorem bounding_box_no_growth (cfg : Config) (st : State) (rtl : Bool) (viewport : Rect)
    (origin : Point) (position : ConnectedPosition)
    (hinit : st.isInitialRender = false) (hgrow : cfg.growAfterOpen = false) :
    (setBoundingBoxStyles cfg st rtl viewport origin position).1.rect.height ≤
      st.lastBoundingBoxSize.height ∧
    (setBoundingBoxStyles cfg st rtl viewport origin position).1.rect.width ≤
      st.lastBoundingBoxSize.width ∧
    ((calculateBoundingBoxRect cfg st rtl viewport origin position).height ≤
        st.lastBoundingBoxSize.height →
      (setBoundingBoxStyles cfg st rtl viewport origin position).1.rect.height =
        (calculateBoundingBoxRect cfg st rtl viewport origin position).height) ∧
    ((calculateBoundingBoxRect cfg st rtl viewport origin position).width ≤
        st.lastBoundingBoxSize.width →
      (setBoundingBoxStyles cfg st rtl viewport origin position).1.rect.width =
        (calculateBoundingBoxRect cfg st rtl viewport origin position).width) := by
  refine ⟨?_, ?_, ?_, ?_⟩ <;>
    simp [setBoundingBoxStyles, hinit, hgrow, min_le_right, min_eq_left]

/-- Witness for C8 at the locked scenario: previous size 1000×1000, fresh
box 90×90 applied unchanged and bounded by the previous size. -/
theorem bounding_box_no_growth_witness :
    stLocked.isInitialRender = false ∧ cfgLocked.growAfterOpen = false ∧
    ((setBoundingBoxStyles cfgLocked stLocked false ⟨0, 0, 100, 100, 100, 100⟩ ⟨10, 10⟩
        posStartTop).1.rect.height ≤ stLocked.lastBoundingBoxSize.height ∧
      (setBoundingBoxStyles cfgLocked stLocked false ⟨0, 0, 100, 100, 100, 100⟩ ⟨10, 10⟩
        posStartTop).1.rect.width ≤ stLocked.lastBoundingBoxSize.width ∧
      ((calculateBoundingBoxRect cfgLocked stLocked false ⟨0, 0, 100, 100, 100, 100⟩ ⟨10, 10⟩
          posStartTop).height ≤ stLocked.lastBoundingBoxSize.height →
        (setBoundingBoxStyles cfgLocked stLocked false ⟨0, 0, 100, 100, 100, 100⟩ ⟨10, 10⟩
          posStartTop).1.rect.height =
          (calculateBoundingBoxRect cfgLocked stLocked false ⟨0, 0, 100, 100, 100, 100⟩ ⟨10, 10⟩
            posStartTop).height) ∧
      ((calculateBoundingBoxRect cfgLocked stLocked false ⟨0, 0, 100, 100, 100, 100⟩ ⟨10, 10⟩
          posStartTop).width ≤ stLocked.lastBoundingBoxSize.width →
        (setBoundingBoxStyles cfgLocked stLocked false ⟨0, 0, 100, 100, 100, 100⟩ ⟨10, 10⟩
          posStartTop).1.rect.width =
          (calculateBoundingBoxRect cfgLocked stLocked false ⟨0, 0, 100, 100, 100, 100⟩ ⟨10, 10⟩
            posStartTop).width)) :=
  ⟨rfl, rfl,
    bounding_box_no_growth cfgLocked stLocked false ⟨0, 0, 100, 100, 100, 100⟩ ⟨10, 10⟩
      posStartTop rfl rfl⟩

/-- Projections of one `_applyPosition` call: what the output records and
how the state fields change. -/
theorem applyPosition_proj (cfg : Config) (st : State) (env : Env) (viewport : Rect)
    (position : ConnectedPosition) (originPoint : Point) :
    (applyPosition cfg st env viewport position originPoint).2.position = position ∧
    (applyPosition cfg st env viewport position originPoint).2.originPoint = originPoint ∧
    (applyPosition cfg st env viewport position originPoint).2.pushed = st.isPushed ∧
    (applyPosition cfg st env viewport position originPoint).2.emitted = env.hasObservers ∧
    (applyPosition cfg st env viewport position originPoint).1.lastPosition = some position ∧
    (applyPosition cfg st env viewport position originPoint).1.isInitialRender = false ∧
    (applyPosition cfg st env viewport position originPoint).1.isPushed = st.isPushed ∧
    (applyPosition cfg st env viewport position originPoint).1.isDisposed = st.isDisposed :=
  ⟨rfl, rfl, rfl, rfl, rfl, rfl, rfl, rfl⟩

/-- C9: for any candidate and its horizontal mirror (start ↔ end swapped
on both originX and overlayX), the origin point, the overlay point and the
bounding box computed under RTL for the candidate coincide with those
computed under LTR for the mirror, all other inputs equal. -/
theorem rtl_mirror_symmetry (originRect overlayRect : Rect) (originPoint : Point)
    (cfg : Config) (st : State) (viewport : Rect) (origin : Point)
    (pos : ConnectedPosition) :
    getOriginPoint true originRect pos = getOriginPoint false originRect (mirrorPosition pos) ∧
    getOverlayPoint true originPoint overlayRect pos =
      getOverlayPoint false originPoint overlayRect (mirrorPosition pos) ∧
    calculateBoundingBoxRect cfg st true viewport origin pos =
      calculateBoundingBoxRect cfg st false viewport origin (mirrorPosition pos) := by
  rcases pos with ⟨ox, oy, lx, ly, w, fx, fy, pc⟩
  cases ox <;> cases lx <;>
    simp [getOriginPoint, getOverlayPoint, calculateBoundingBoxRect, mirrorPosition, mirrorH]

/-- One candidate passes the four enum validators iff all four fields hold
allowed literals. -/
theorem validateRawPair_ok_iff (pair : RawConnectedPosition) :
    validateRawPair pair = .ok () ↔ rawPositionValid pair = true := by
  rcases pair with ⟨a, b, c, d⟩
  simp only [validateRawPair, validateHorizontalPosition, validateVerticalPosition,
    Except.bind]
  split_ifs <;> simp_all [rawPositionValid, or_assoc]

/-- The sequential list validation succeeds iff every candidate passes. -/
theorem validateRawList_ok_iff (ps : List RawConnectedPosition) :
    validateRawList ps = .ok () ↔ ∀ p ∈ ps, rawPositionValid p = true := by
  induction ps with
  | nil => simp [validateRawList]
  | cons p rest ih =>
    have hdef : validateRawList (p :: rest) =
        (validateRawPair p).bind fun _ => validateRawList rest := rfl
    rw [hdef]
    rcases h : validateRawPair p with e | u
    · simp only [Except.bind]
      constructor
      · intro hk
        exact absurd hk (by simp)
      · intro hall
        have hok := (validateRawPair_ok_iff p).mpr (hall p (by simp))
        rw [h] at hok
        exact absurd hok (by simp)
    · cases u
      simp only [Except.bind, ih, List.mem_cons]
      constructor
      · intro hall q hq
        rcases hq with rfl | hq
        · exact (validateRawPair_ok_iff q).mp h
        · exact hall q hq
      · intro hall q hq
        exact hall q (Or.inr hq)

/-- C6 (amended): whenever the ngDevMode guard is active (the global is
undefined or truthy), the configuration errors are raised synchronously:
an empty candidate list throws, validation succeeds iff the list is
nonempty and every enum literal is allowed, and attaching a strategy that
already holds a different live overlay throws.  (In builds where ngDevMode
is defined and falsy all these checks are skipped.) -/
theorem config_validation_dev_mode_only (dm : Option Bool) (ps : List RawConnectedPosition)
    (hdev : devModeEnabled dm = true) :
    (ps = [] → validateRawPositions dm ps =
      .error "FlexibleConnectedPositionStrategy: At least one position is required.") ∧
    (validateRawPositions dm ps = .ok () ↔
      ps ≠ [] ∧ ∀ p ∈ ps, rawPositionValid p = true) ∧
    (∀ alreadyAttached sameRef,
      attachReattachThrows dm alreadyAttached sameRef = (alreadyAttached && !sameRef)) := by
  refine ⟨?_, ?_, ?_⟩
  · intro h
    subst h
    simp [validateRawPositions, hdev]
  · rcases ps with _ | ⟨p, rest⟩
    · simp [validateRawPositions, hdev]
    · simp [validateRawPositions, hdev, validateRawList_ok_iff]
  · intro a s
    simp [attachReattachThrows, hdev]

/-- Witness for C6: with ngDevMode undefined the guard is active, and an
empty candidate list is rejected with the documented error. -/
theorem config_validation_dev_mode_only_witness :
    devModeEnabled none = true ∧
    validateRawPositions none ([] : List RawConnectedPosition) =
      .error "FlexibleConnectedPositionStrategy: At least one position is required." :=
  ⟨rfl, (config_validation_dev_mode_only none [] rfl).1 rfl⟩

/-- C6 counterexample: in a build where ngDevMode is defined and false,
the empty list, the invalid enum literal and the re-attach to a different
overlay are all silently accepted — the claim's "in every build
configuration" fails. -/
theorem config_validation_prod_skip_cx :
    devModeEnabled (some false) = false ∧
    validateRawPositions (some false) [] = .ok () ∧
    validateRawPositions (some false) [rawInvalid] = .ok () ∧
    rawPositionValid rawInvalid = false ∧
    attachReattachThrows (some false) true false = false := by
  refine ⟨rfl, rfl, rfl, by decide, rfl⟩

/-- Witness for C5: a locked strategy with recorded delta (3, 4) pushes
(10, 10) to exactly (13, 14) and keeps the cell unchanged; an unlocked one
computes and records afresh. -/
theorem push_resolver_locked_reuse_witness :
    cfgLocked.positionLocked = true ∧
    pushOverlayOnScreen cfgLocked ⟨0, 0, 100, 100, 100, 100⟩ (some ⟨3, 4⟩) ⟨10, 10⟩
      overlayRect30 ⟨0, 0⟩ = (⟨10 + 3, 10 + 4⟩, some ⟨3, 4⟩) :=
  ⟨rfl,
    (push_resolver_locked_reuse cfgLocked ⟨0, 0, 100, 100, 100, 100⟩ (some ⟨3, 4⟩) ⟨10, 10⟩
      overlayRect30 ⟨0, 0⟩).1 ⟨3, 4⟩ rfl rfl⟩

/-- C7 (amended): whenever an `apply()` call applies a placement — through
the full selection or through the locked reapply shortcut — the
positionChanges event is emitted exactly when there is at least one
subscriber.  In particular a pure reapply-under-lock does emit. -/
theorem position_change_emission (cfg : Config) (st : State) (env : Env)
    (st' : State) (out : Output)
    (h : applyStep cfg st env = (st', some out)) :
    out.emitted = env.hasObservers := by
  unfold applyStep reapplyLastPosition fullApply at h
  repeat'
    first
    | split at h
    | (simp only [] at h; split at h)
  all_goals simp only [Prod.mk.injEq, Option.some.injEq] at h
  all_goals try exact absurd h.2 (by simp)
  all_goals rw [← h.2]
  all_goals rfl

/-- Witness for C7's amended theorem at the observed locked scenario. -/
theorem position_change_emission_witness :
    ∃ st' out, applyStep cfgLocked stLocked envLockedObserved = (st', some out) ∧
      out.emitted = envLockedObserved.hasObservers := by
  rcases h : applyStep cfgLocked stLocked envLockedObserved with ⟨s2, o2⟩
  rcases o2 with _ | out
  · have hne : (applyStep cfgLocked stLocked envLockedObserved).2 ≠ none := by
      with_unfolding_all decide
    rw [h] at hne
    exact absurd rfl hne
  · exact ⟨s2, out, rfl, position_change_emission cfgLocked stLocked envLockedObserved s2 out h⟩

/-- C7 counterexample: an `apply()` call that takes the locked shortcut
(position locked, not the initial render, last position recorded) and
merely reapplies the last position still emits a positionChanges event
when there is a subscriber — contradicting "never on a pure
reapply-under-lock". -/
theorem locked_reapply_emits_cx :
    cfgLocked.positionLocked = true ∧ stLocked.isInitialRender = false ∧
    stLocked.lastPosition = some posStartTop ∧
    envLockedObserved.hasObservers = true ∧
    (applyStep cfgLocked stLocked envLockedObserved).2.map (fun o => o.emitted) =
      some true := by
  refine ⟨rfl, rfl, rfl, rfl, ?_⟩
  with_unfolding_all decide

/-- The candidate loop returns the first candidate (in list order) whose
overlay fit is completely within the viewport, regardless of the
accumulated flexible fits and fallback. -/
theorem applyLoop_immediate_of_find (cfg : Config) (st : State) (env : Env)
    (viewport : Rect) (pos : ConnectedPosition) :
    ∀ (ps : List ConnectedPosition) (fits : List FlexibleFit)
      (fb : Option FallbackPosition),
      ps.find? (completeFitB cfg env viewport) = some pos →
      applyLoop cfg st env viewport ps fits fb =
        .immediate pos (getOriginPoint env.rtl env.originRect pos) := by
  intro ps
  induction ps with
  | nil => intro fits fb h; simp at h
  | cons p rest ih =>
    intro fits fb h
    rw [List.find?_cons] at h
    by_cases hp : completeFitB cfg env viewport p = true
    · rw [hp] at h
      obtain rfl : p = pos := by simpa using h
      have hp' : (getOverlayFit cfg
          (getOverlayPoint env.rtl (getOriginPoint env.rtl env.originRect p) env.overlayRect p)
          env.overlayRect viewport p).isCompletelyWithinViewport = true := hp
      simp only [applyLoop]
      simp [hp']
    · have hp0 : completeFitB cfg env viewport p = false := by simpa using hp
      have hp' : (getOverlayFit cfg
          (getOverlayPoint env.rtl (getOriginPoint env.rtl env.originRect p) env.overlayRect p)
          env.overlayRect viewport p).isCompletelyWithinViewport = false := hp0
      rw [hp0] at h
      simp only [] at h
      simp only [applyLoop, hp']
      simp only [Bool.false_eq_true, if_false]
      split
      · exact ih _ _ h
      · exact ih _ _ h

/-- C1: whenever some candidate's overlay fit is completely within the
viewport, `apply()` selects the first such candidate in list order —
never a later one — applies it with `pushed = false`, and uses that
candidate's origin point. -/
theorem apply_first_fit_wins (cfg : Config) (st : State) (env : Env)
    (pos : ConnectedPosition)
    (hdisp : st.isDisposed = false) (hbr : env.isBrowser = true)
    (hinit : st.isInitialRender = true)
    (hfind : cfg.preferredPositions.find?
      (completeFitB cfg env (getNarrowedViewportRect cfg env)) = some pos) :
    ∃ st' out, applyStep cfg st env = (st', some out) ∧
      out.position = pos ∧ out.pushed = false ∧
      out.originPoint = getOriginPoint env.rtl env.originRect pos := by
  have hfull : applyStep cfg st env = fullApply cfg st env := by
    simp [applyStep, hdisp, hbr, hinit]
  rw [hfull, fullApply,
    applyLoop_immediate_of_find cfg st env (getNarrowedViewportRect cfg env) pos
      cfg.preferredPositions [] none hfind]
  exact ⟨_, _, rfl, rfl, rfl, rfl⟩

set_option maxRecDepth 4000 in
/-- Witness for C1 at the spec's concrete scenario: origin 20×20 at
(10, 10), viewport 100×100, single candidate end/bottom → start/top,
overlay 30×30; it fits completely and is selected unpushed at (30, 30). -/
theorem apply_first_fit_wins_witness :
    stInitial.isDisposed = false ∧ envC1.isBrowser = true ∧
    stInitial.isInitialRender = true ∧
    cfgC1.preferredPositions.find?
      (completeFitB cfgC1 envC1 (getNarrowedViewportRect cfgC1 envC1)) = some posEndBottom ∧
    (∃ st' out, applyStep cfgC1 stInitial envC1 = (st', some out) ∧
      out.position = posEndBottom ∧ out.pushed = false ∧
      out.originPoint = getOriginPoint envC1.rtl envC1.originRect posEndBottom) := by
  have hfind : cfgC1.preferredPositions.find?
      (completeFitB cfgC1 envC1 (getNarrowedViewportRect cfgC1 envC1)) = some posEndBottom := by
    with_unfolding_all decide
  exact ⟨rfl, rfl, rfl, hfind,
    apply_first_fit_wins cfgC1 stInitial envC1 posEndBottom rfl rfl rfl hfind⟩

/-- The best-fit scan only returns a fit whose score bounds the running
score and every scanned score. -/
theorem bestFlexLoop_le (fits : List FlexibleFit) :
    ∀ (best : Option FlexibleFit) (b : ℚ),
      (∀ x, best = some x → b ≤ codeScore x) →
      ∀ g, bestFlexLoop fits best b = some g →
        b ≤ codeScore g ∧ ∀ f ∈ fits, codeScore f ≤ codeScore g := by
  induction fits with
  | nil =>
    intro best b hb g hg
    simp only [bestFlexLoop] at hg
    exact ⟨hb g hg, by simp⟩
  | cons f rest ih =>
    intro best b hb g hg
    rw [bestFlexLoop] at hg
    by_cases hf : b < codeScore f
    · rw [if_pos hf] at hg
      obtain ⟨h1, h2⟩ := ih (some f) (codeScore f)
        (by intro x hx; injection hx with hx; rw [← hx]) g hg
      refine ⟨le_trans (le_of_lt hf) h1, ?_⟩
      intro x hx
      rcases List.mem_cons.mp hx with rfl | hx
      · exact h1
      · exact h2 x hx
    · rw [if_neg hf] at hg
      obtain ⟨h1, h2⟩ := ih best b hb g hg
      refine ⟨h1, ?_⟩
      intro x hx
      rcases List.mem_cons.mp hx with rfl | hx
      · exact le_trans (le_of_not_lt hf) h1
      · exact h2 x hx

/-- The best-fit scan either keeps the incoming best or returns a fit
strictly better than the running score and strictly better than
everything before it in the list (first-seen wins ties). -/
theorem bestFlexLoop_first (fits : List FlexibleFit) :
    ∀ (best : Option FlexibleFit) (b : ℚ) (g : FlexibleFit),
      bestFlexLoop fits best b = some g →
      best = some g ∨ ∃ l₁ l₂, fits = l₁ ++ g :: l₂ ∧ b < codeScore g ∧
        ∀ f ∈ l₁, codeScore f < codeScore g := by
  induction fits with
  | nil =>
    intro best b g hg
    simp only [bestFlexLoop] at hg
    exact Or.inl hg
  | cons f rest ih =>
    intro best b g hg
    rw [bestFlexLoop] at hg
    by_cases hf : b < codeScore f
    · rw [if_pos hf] at hg
      rcases ih (some f) (codeScore f) g hg with heq | ⟨l₁, l₂, hsplit, hlt, hpre⟩
      · injection heq with heq
        subst heq
        exact Or.inr ⟨[], rest, rfl, hf, by simp⟩
      · refine Or.inr ⟨f :: l₁, l₂, by rw [hsplit]; rfl, lt_trans hf hlt, ?_⟩
        intro x hx
        rcases List.mem_cons.mp hx with rfl | hx
        · exact hlt
        · exact hpre x hx
    · rw [if_neg hf] at hg
      rcases ih best b g hg with heq | ⟨l₁, l₂, hsplit, hlt, hpre⟩
      · exact Or.inl heq
      · refine Or.inr ⟨f :: l₁, l₂, by rw [hsplit]; rfl, hlt, ?_⟩
        intro x hx
        rcases List.mem_cons.mp hx with rfl | hx
        · exact lt_of_le_of_lt (le_of_not_lt hf) hlt
        · exact hpre x hx

/-- Once the best-fit scan holds a candidate it never returns null. -/
theorem bestFlexLoop_isSome (fits : List FlexibleFit) :
    ∀ (g : FlexibleFit) (b : ℚ), ∃ g', bestFlexLoop fits (some g) b = some g' := by
  induction fits with
  | nil => intro g b; exact ⟨g, rfl⟩
  | cons f rest ih =>
    intro g b
    rw [bestFlexLoop]
    by_cases hf : b < codeScore f
    · rw [if_pos hf]; exact ih f _
    · rw [if_neg hf]; exact ih g b

/-- The best-fit scan returns a candidate whenever some score beats the
running score. -/
theorem bestFlexLoop_some (fits : List FlexibleFit) :
    ∀ (b : ℚ) (best : Option FlexibleFit),
      (∃ f ∈ fits, b < codeScore f) → ∃ g, bestFlexLoop fits best b = some g := by
  induction fits with
  | nil => intro b best h; simp at h
  | cons f rest ih =>
    intro b best h
    rw [bestFlexLoop]
    by_cases hf : b < codeScore f
    · rw [if_pos hf]; exact bestFlexLoop_isSome rest f _
    · rw [if_neg hf]
      apply ih b best
      rcases h with ⟨x, hx, hbx⟩
      rcases List.mem_cons.mp hx with rfl | hx
      · exact absurd hbx hf
      · exact ⟨x, hx, hbx⟩

/-- C2 (amended): when no candidate fits completely, flexible fits were
recorded, and some recorded fit has a score above the initial -1, apply()
selects the flexible fit maximizing
`boundingBoxRect.width * boundingBoxRect.height * (weight || 1)` — JS
falsy coalescing, so an explicit weight of 0 also counts as 1 — with ties
broken in favor of the first-seen candidate (strict greater-than scan),
and applies it with `pushed = false`. -/
theorem apply_flexible_best (cfg : Config) (st : State) (env : Env)
    (flexibleFits : List FlexibleFit) (fallback : Option FallbackPosition)
    (hdisp : st.isDisposed = false) (hbr : env.isBrowser = true)
    (hinit : st.isInitialRender = true)
    (hloop : applyLoop cfg st env (getNarrowedViewportRect cfg env)
      cfg.preferredPositions [] none = .finished flexibleFits fallback)
    (hex : ∃ f ∈ flexibleFits, (-1 : ℚ) < codeScore f) :
    ∃ st' out g l₁ l₂,
      applyStep cfg st env = (st', some out) ∧
      out.position = g.position ∧ out.originPoint = g.origin ∧ out.pushed = false ∧
      flexibleFits = l₁ ++ g :: l₂ ∧
      (∀ f ∈ flexibleFits, codeScore f ≤ codeScore g) ∧
      (∀ f ∈ l₁, codeScore f < codeScore g) := by
  have hfull : applyStep cfg st env = fullApply cfg st env := by
    simp [applyStep, hdisp, hbr, hinit]
  obtain ⟨g, hg⟩ := bestFlexLoop_some flexibleFits (-1) none hex
  have hne : flexibleFits.isEmpty = false := by
    rcases hex with ⟨f, hf, _⟩
    rcases flexibleFits with _ | ⟨a, as⟩
    · simp at hf
    · rfl
  obtain ⟨hb, hall⟩ :=
    bestFlexLoop_le flexibleFits none (-1) (by intro x hx; cases hx) g hg
  rcases bestFlexLoop_first flexibleFits none (-1) g hg with heq | ⟨l₁, l₂, hsplit, _, hpre⟩
  · cases heq
  rw [hfull, fullApply, hloop]
  simp only [hne, Bool.not_false, if_true, hg]
  exact ⟨_, _, g, l₁, l₂, rfl, rfl, rfl, rfl, hsplit, hall, hpre⟩

set_option maxRecDepth 8000 in
/-- Witness for C2's amended theorem at the weight-zero scenario: the fit
with score 900 (width 10, height 90, weight 0 coalesced to 1) beats the
fit with score 100 and is the first-listed maximum. -/
theorem apply_flexible_best_witness :
    (∃ f ∈ [fitC2A, fitC2B], (-1 : ℚ) < codeScore f) ∧
    (∃ st' out g l₁ l₂,
      applyStep cfgC2 stInitial envC2 = (st', some out) ∧
      out.position = g.position ∧ out.originPoint = g.origin ∧ out.pushed = false ∧
      [fitC2A, fitC2B] = l₁ ++ g :: l₂ ∧
      (∀ f ∈ [fitC2A, fitC2B], codeScore f ≤ codeScore g) ∧
      (∀ f ∈ l₁, codeScore f < codeScore g)) := by
  have hloop : applyLoop cfgC2 stInitial envC2 (getNarrowedViewportRect cfgC2 envC2)
      cfgC2.preferredPositions [] none = .finished [fitC2A, fitC2B] none := by
    with_unfolding_all decide
  have hex : ∃ f ∈ [fitC2A, fitC2B], (-1 : ℚ) < codeScore f :=
    ⟨fitC2A, by simp, by with_unfolding_all decide⟩
  exact ⟨hex,
    apply_flexible_best cfgC2 stInitial envC2 [fitC2A, fitC2B] none rfl rfl rfl hloop hex⟩

set_option maxRecDepth 8000 in
/-- C2 counterexample: with the spec's `weight ?? 1` scoring (an explicit
weight of 0 scores 0), the recorded flexible fits score 0 and 100, yet the
code selects the weight-0 candidate — so apply() does not maximize the
claimed objective. -/
theorem apply_flexible_weight_zero_cx :
    appliedPositionOf cfgC2 stInitial envC2 = some posWeightZero ∧
    posWeightZero.weight = some 0 ∧
    (flexibleFitsOf cfgC2 stInitial envC2).map (fun f => f.position) =
      [posWeightZero, posStartTop] ∧
    (flexibleFitsOf cfgC2 stInitial envC2).map specFlexScore = [0, 100] ∧
    (0 : ℚ) < 100 := by
  refine ⟨?_, rfl, ?_, ?_, by norm_num⟩ <;> with_unfolding_all decide

/-- A candidate selected immediately by the loop is one of the iterated
candidates. -/
theorem applyLoop_immediate_mem (cfg : Config) (st : State) (env : Env) (viewport : Rect) :
    ∀ (ps : List ConnectedPosition) (fits : List FlexibleFit)
      (fb : Option FallbackPosition) (pos : ConnectedPosition) (op : Point),
      applyLoop cfg st env viewport ps fits fb = .immediate pos op → pos ∈ ps := by
  intro ps
  induction ps with
  | nil =>
    intro fits fb pos op h
    simp [applyLoop] at h
  | cons p rest ih =>
    intro fits fb pos op h
    simp only [applyLoop] at h
    split at h
    · injection h with h1 h2
      rw [← h1]
      exact List.mem_cons_self _ _
    · split at h
      · exact List.mem_cons_of_mem _ (ih _ _ _ _ h)
      · exact List.mem_cons_of_mem _ (ih _ _ _ _ h)

/-- Every flexible fit and the fallback the loop hands back either came in
through the accumulators or carries one of the iterated candidates. -/
theorem applyLoop_finished_mem (cfg : Config) (st : State) (env : Env) (viewport : Rect) :
    ∀ (ps : List ConnectedPosition) (fits : List FlexibleFit)
      (fb : Option FallbackPosition) (fits' : List FlexibleFit)
      (fb' : Option FallbackPosition),
      applyLoop cfg st env viewport ps fits fb = .finished fits' fb' →
      (∀ f ∈ fits', f ∈ fits ∨ f.position ∈ ps) ∧
      (∀ g, fb' = some g → fb = some g ∨ g.position ∈ ps) := by
  intro ps
  induction ps with
  | nil =>
    intro fits fb fits' fb' h
    rw [applyLoop] at h
    injection h with h1 h2
    subst h1
    subst h2
    exact ⟨fun f hf => Or.inl hf, fun g hg => Or.inl hg⟩
  | cons p rest ih =>
    intro fits fb fits' fb' h
    simp only [applyLoop] at h
    split at h
    · cases h
    · split at h
      · obtain ⟨h1, h2⟩ := ih _ _ _ _ h
        constructor
        · intro f hf
          rcases h1 f hf with hmem | hpos
          · rcases List.mem_append.mp hmem with hmem | hmem
            · exact Or.inl hmem
            · rw [List.mem_singleton.mp hmem]
              exact Or.inr (List.mem_cons_self _ _)
          · exact Or.inr (List.mem_cons_of_mem _ hpos)
        · intro g hg
          rcases h2 g hg with hfb | hpos
          · exact Or.inl hfb
          · exact Or.inr (List.mem_cons_of_mem _ hpos)
      · obtain ⟨h1, h2⟩ := ih _ _ _ _ h
        constructor
        · intro f hf
          rcases h1 f hf with hmem | hpos
          · exact Or.inl hmem
          · exact Or.inr (List.mem_cons_of_mem _ hpos)
        · intro g hg
          rcases h2 g hg with hfb2 | hpos
          · rcases hfb : fb with _ | f0
            · rw [hfb] at hfb2
              simp only [] at hfb2
              injection hfb2 with hfb2
              rw [← hfb2]
              exact Or.inr (List.mem_cons_self _ _)
            · rw [hfb] at hfb2
              simp only [] at hfb2
              split at hfb2
              · injection hfb2 with hfb2
                rw [← hfb2]
                exact Or.inr (List.mem_cons_self _ _)
              · exact Or.inl hfb2
          · exact Or.inr (List.mem_cons_of_mem _ hpos)

/-- C10: the stored last position is always null or a member of the
current preferred-positions list: withPositions() clears it whenever the
previously selected position is absent from the new list, every apply()
path stores only a member of the current list (so a locked reapply never
reuses a removed candidate), and detach() resets it to null. -/
theorem last_position_invariant :
    (∀ positions cfg st,
      LastPositionInv (withPositions positions cfg st).1 (withPositions positions cfg st).2.1) ∧
    (∀ cfg st env, LastPositionInv cfg st →
      LastPositionInv cfg (applyStep cfg st env).1) ∧
    (∀ st, (detachState st).lastPosition = none) := by
  refine ⟨?_, ?_, ?_⟩
  · intro positions cfg st
    unfold withPositions
    rcases hlp : st.lastPosition with _ | p
    · exact Or.inl rfl
    · by_cases hc : positions.contains p = true
      · simp only [hc, if_true]
        exact Or.inr ⟨p, hlp, by simpa using hc⟩
      · simp only [hc, if_false]
        exact Or.inl rfl
  · intro cfg st env hinv
    unfold applyStep
    split
    · exact hinv
    · split
      · unfold reapplyLastPosition
        split
        · rcases hlp : st.lastPosition with _ | p
          · rcases hhd : cfg.preferredPositions.head? with _ | q
            · simp only [hlp, hhd]
              exact hinv
            · simp only [hlp, hhd]
              exact Or.inr ⟨q, rfl, List.mem_of_mem_head? hhd⟩
          · simp only [hlp]
            rcases hinv with hnone | ⟨p', hp', hmem⟩
            · rw [hlp] at hnone
              cases hnone
            · rw [hlp] at hp'
              injection hp' with hp'
              subst hp'
              exact Or.inr ⟨p, rfl, hmem⟩
        · exact hinv
      · unfold fullApply
        simp only []
        split
        · rename_i pos op hloopeq
          exact Or.inr ⟨pos, rfl,
            applyLoop_immediate_mem cfg st env (getNarrowedViewportRect cfg env)
              cfg.preferredPositions [] none pos op hloopeq⟩
        · rename_i fits fb hloopeq
          have hmem := applyLoop_finished_mem cfg st env (getNarrowedViewportRect cfg env)
            cfg.preferredPositions [] none fits fb hloopeq
          split
          · split
            · rename_i g hbest
              have hgfits : g ∈ fits := by
                rcases bestFlexLoop_first fits none (-1) g hbest with heq |
                  ⟨l₁, l₂, hsplit, _, _⟩
                · cases heq
                · rw [hsplit]
                  exact List.mem_append_right _ (List.mem_cons_self _ _)
              rcases hmem.1 g hgfits with hin | hpos
              · cases hin
              · exact Or.inr ⟨g.position, rfl, hpos⟩
            · exact hinv
          · split
            · split
              · rename_i x0 xf g
                rcases hmem.2 g rfl with hin | hpos
                · cases hin
                · exact Or.inr ⟨g.position, rfl, hpos⟩
              · exact hinv
            · split
              · rename_i x0 xf g
                rcases hmem.2 g rfl with hin | hpos
                · cases hin
                · exact Or.inr ⟨g.position, rfl, hpos⟩
              · exact hinv
  · intro st
    rfl

/-- Witness for C10's preservation conjunct at the locked scenario: the
invariant holds before and after one apply() call. -/
theorem last_position_invariant_witness :
    LastPositionInv cfgLocked stLocked ∧
    LastPositionInv cfgLocked ((applyStep cfgLocked stLocked envLockedA).1) := by
  have hpre : LastPositionInv cfgLocked stLocked :=
    Or.inr ⟨posStartTop, rfl, List.mem_cons_self _ _⟩
  exact ⟨hpre, last_position_invariant.2.1 cfgLocked stLocked envLockedA hpre⟩

/-- Feeding the push cell a push resolver call just produced back into the
resolver reproduces the same point and cell. -/
theorem pushOverlayOnScreen_stable (cfg : Config) (viewport : Rect) (prev : Option Point)
    (start : Point) (rawOverlayRect : Rect) (scroll : ViewportScrollPos) :
    pushOverlayOnScreen cfg viewport
      (pushOverlayOnScreen cfg viewport prev start rawOverlayRect scroll).2
      start rawOverlayRect scroll =
      pushOverlayOnScreen cfg viewport prev start rawOverlayRect scroll := by
  rcases prev with _ | p <;> rcases hl : cfg.positionLocked with _ | _ <;>
    simp [pushOverlayOnScreen, hl]

/-- min a (min a b) = min a b. -/
theorem min_self_min (a b : ℚ) : min a (min a b) = min a b := by
  rw [← min_assoc, min_self]

/-- min a b < a iff b < a. -/
theorem min_lt_left_iff (a b : ℚ) : min a b < a ↔ b < a := by
  simp [min_lt_iff, lt_irrefl]

/-- min a b = b when b < a. -/
theorem min_eq_right_of_lt {a b : ℚ} (h : b < a) : min a b = b :=
  min_eq_right (le_of_lt h)

/-- Re-running `_calculateBoundingBoxRect` after the previous run's capped
size was stored as the last bounding box size reproduces the same rect:
the no-grow re-centering adjustment is stable under the stored min. -/
theorem calculateBoundingBoxRect_stable (cfg : Config) (st st' : State) (rtl : Bool)
    (viewport : Rect) (origin : Point) (position : ConnectedPosition)
    (hinit : st.isInitialRender = false) (hinit' : st'.isInitialRender = false)
    (hG : cfg.growAfterOpen = false)
    (hH : st'.lastBoundingBoxSize.height =
      min (calculateBoundingBoxRect cfg st rtl viewport origin position).height
        st.lastBoundingBoxSize.height)
    (hW : st'.lastBoundingBoxSize.width =
      min (calculateBoundingBoxRect cfg st rtl viewport origin position).width
        st.lastBoundingBoxSize.width) :
    calculateBoundingBoxRect cfg st' rtl viewport origin position =
      calculateBoundingBoxRect cfg st rtl viewport origin position := by
  rcases position with ⟨ox, oy, lx, ly, w, fx, fy, pc⟩
  simp only [calculateBoundingBoxRect, hinit, hinit', hG, eq_self_iff_true, and_true]
    at hH hW ⊢
  cases ly <;>
    (congr 1 <;>
      first
      | rfl
      | (split_ifs at hH hW ⊢ <;>
          first
          | rfl
          | (simp only [] at hH hW ⊢
             simp only [hH, hW, min_lt_left_iff] at *
             first
             | rfl
             | simp_all [min_eq_right_of_lt])))

/-- Re-running `_setBoundingBoxStyles` on the state it just produced (same
measurements) emits the same styles and stores the same size. -/
theorem setBoundingBoxStyles_stable (cfg : Config) (st st' : State) (rtl : Bool)
    (viewport : Rect) (origin : Point) (position : ConnectedPosition)
    (hinit : st.isInitialRender = false) (hinit' : st'.isInitialRender = false)
    (hpush : st'.isPushed = st.isPushed)
    (hsize : st'.lastBoundingBoxSize =
      (setBoundingBoxStyles cfg st rtl viewport origin position).2) :
    setBoundingBoxStyles cfg st' rtl viewport origin position =
      setBoundingBoxStyles cfg st rtl viewport origin position := by
  rcases hG : cfg.growAfterOpen with _ | _
  · have hH : st'.lastBoundingBoxSize.height =
        min (calculateBoundingBoxRect cfg st rtl viewport origin position).height
          st.lastBoundingBoxSize.height := by
      rw [hsize]
      simp only [setBoundingBoxStyles, hinit, hG, eq_self_iff_true, and_true, if_true]
    have hW : st'.lastBoundingBoxSize.width =
        min (calculateBoundingBoxRect cfg st rtl viewport origin position).width
          st.lastBoundingBoxSize.width := by
      rw [hsize]
      simp only [setBoundingBoxStyles, hinit, hG, eq_self_iff_true, and_true, if_true]
    have hcalc := calculateBoundingBoxRect_stable cfg st st' rtl viewport origin position
      hinit hinit' hG hH hW
    simp only [setBoundingBoxStyles, hcalc, hasExactPosition, hpush, hinit, hinit', hG,
      eq_self_iff_true, and_true, if_true]
    simp only [hH, hW, min_self_min]
  · have hfalse : (true = false) = False := by simp
    simp only [setBoundingBoxStyles, calculateBoundingBoxRect, hasExactPosition, hpush,
      hinit, hinit', hG, hfalse, and_false, if_false]

/-- Re-running `_setOverlayElementStyles` on the push cell it just
produced (same measurements) emits the same styles and cell: an unpushed
pass leaves the cell alone, and a pushed pass reuses or recomputes the
identical push. -/
theorem setOverlayElementStyles_stable (cfg : Config) (st st' : State) (env : Env)
    (viewport : Rect) (position : ConnectedPosition) (originPoint : Point)
    (hpush : st'.isPushed = st.isPushed)
    (hprev : st'.previousPushAmount =
      (setOverlayElementStyles cfg st env viewport position originPoint).2) :
    setOverlayElementStyles cfg st' env viewport position originPoint =
      setOverlayElementStyles cfg st env viewport position originPoint := by
  rcases position with ⟨ox, oy, lx, ly, w, fx, fy, pc⟩
  have hE' : hasExactPosition cfg st' = hasExactPosition cfg st := by
    simp [hasExactPosition, hpush]
  rcases hE : hasExactPosition cfg st with _ | _
  · rw [hE] at hE'
    simp only [setOverlayElementStyles, hE', hE, Bool.false_eq_true, if_false] at hprev ⊢
    rw [hprev]
  · rw [hE] at hE'
    rcases hP : st.isPushed with _ | _
    · have hP' : st'.isPushed = false := by rw [hpush, hP]
      simp only [setOverlayElementStyles, getExactOverlayY, getExactOverlayX, hE', hE,
        hP, hP', Bool.false_eq_true, if_true, if_false] at hprev ⊢
      cases ly <;> split_ifs at hprev ⊢ <;> simp_all
    · have hP' : st'.isPushed = true := by rw [hpush, hP]
      simp only [setOverlayElementStyles, getExactOverlayY, getExactOverlayX, hE', hE,
        hP, hP', if_true] at hprev ⊢
      cases ly <;> split_ifs at hprev ⊢ <;>
        (simp only [] at hprev ⊢
         simp only [hprev, pushOverlayOnScreen_stable])

/-- Re-running `_applyPosition` on the state it just produced, against the
same measurements, reproduces both the state and the output. -/
theorem applyPosition_idem (cfg : Config) (st : State) (env : Env) (viewport : Rect)
    (position : ConnectedPosition) (originPoint : Point)
    (hinit : st.isInitialRender = false) :
    applyPosition cfg (applyPosition cfg st env viewport position originPoint).1 env
      viewport position originPoint =
      applyPosition cfg st env viewport position originPoint := by
  set r := applyPosition cfg st env viewport position originPoint with hr
  have h1 : setOverlayElementStyles cfg r.1 env viewport position originPoint =
      setOverlayElementStyles cfg st env viewport position originPoint :=
    setOverlayElementStyles_stable cfg st r.1 env viewport position originPoint rfl rfl
  have h2 : setBoundingBoxStyles cfg r.1 env.rtl viewport originPoint position =
      setBoundingBoxStyles cfg st env.rtl viewport originPoint position :=
    setBoundingBoxStyles_stable cfg st r.1 env.rtl viewport originPoint position
      hinit rfl rfl rfl
  rw [hr]
  conv_lhs => rw [applyPosition]
  rw [h1, h2]
  rfl

/-- C4 (amended): two apply() calls in succession with the position
locked, a non-null last position, no intervening viewport-resize, and the
same measured origin/overlay/viewport rects produce byte-identical output
(the second call returns exactly the first call's state and output).  When
the origin rect changes between the calls, only the candidate choice is
stable; the output box follows the fresh origin. -/
theorem locked_reapply_idempotent (cfg : Config) (st : State) (env : Env)
    (hlock : cfg.positionLocked = true) (hinit : st.isInitialRender = false)
    (hsome : st.lastPosition.isSome = true)
    (hdisp : st.isDisposed = false) (hbr : env.isBrowser = true) :
    applyStep cfg (applyStep cfg st env).1 env = applyStep cfg st env := by
  obtain ⟨pos, hpos⟩ := Option.isSome_iff_exists.mp hsome
  set r := applyPosition cfg st env (getNarrowedViewportRect cfg env) pos
    (getOriginPoint env.rtl env.originRect pos) with hr
  have hstep : applyStep cfg st env = (r.1, some r.2) := by
    rw [hr]
    simp [applyStep, reapplyLastPosition, hdisp, hbr, hinit, hlock, hsome, hpos]
  rw [hstep]
  have hd1 : r.1.isDisposed = false := hdisp
  have hi1 : r.1.isInitialRender = false := rfl
  have hs1 : r.1.lastPosition = some pos := rfl
  have hsome1 : r.1.lastPosition.isSome = true := by rw [hs1]; rfl
  have step2 : applyStep cfg r.1 env =
      ((applyPosition cfg r.1 env (getNarrowedViewportRect cfg env) pos
          (getOriginPoint env.rtl env.originRect pos)).1,
        some (applyPosition cfg r.1 env (getNarrowedViewportRect cfg env) pos
          (getOriginPoint env.rtl env.originRect pos)).2) := by
    simp [applyStep, reapplyLastPosition, hd1, hbr, hi1, hlock, hsome1, hs1]
  simp only []
  rw [step2]
  have hidem := applyPosition_idem cfg st env (getNarrowedViewportRect cfg env) pos
    (getOriginPoint env.rtl env.originRect pos) hinit
  rw [← hr] at hidem
  rw [hidem]

/-- Witness for C4's amended theorem at the locked scenario with unchanged
measurements. -/
theorem locked_reapply_idempotent_witness :
    cfgLocked.positionLocked = true ∧ stLocked.isInitialRender = false ∧
    stLocked.lastPosition.isSome = true ∧
    applyStep cfgLocked (applyStep cfgLocked stLocked envLockedA).1 envLockedA =
      applyStep cfgLocked stLocked envLockedA :=
  ⟨rfl, rfl, rfl, locked_reapply_idempotent cfgLocked stLocked envLockedA rfl rfl rfl rfl rfl⟩

set_option maxRecDepth 8000 in
/-- C4 counterexample: under lock, with the origin rect moved from
(10, 10) to (20, 20) between two apply() calls, the second call's output
box differs from the first's — the locked reapply re-measures the origin
and the box follows it, so the outputs are not byte-identical. -/
theorem locked_reapply_origin_shift_cx :
    cfgLocked.positionLocked = true ∧ stLocked.isInitialRender = false ∧
    stLocked.lastPosition = some posStartTop ∧
    envLockedA.originRect ≠ envLockedB.originRect ∧
    (applyStep cfgLocked stLocked envLockedA).2.map (fun o => o.box) ≠
      (applyStep cfgLocked (applyStep cfgLocked stLocked envLockedA).1 envLockedB).2.map
        (fun o => o.box) := by
  refine ⟨rfl, rfl, rfl, ?_, ?_⟩ <;> with_unfolding_all decide

end Overlay
